import Mathlib

/-!
Verification development for the image-description app
(`src/image_description.py`).  The cache / approval-state pipeline of the
program is embedded shallowly: Python dicts returned by `describe_image`
become the `ImgDict` structure (an `Option` field models a possibly absent
dict key; `Option (Option String)` models a key that, when present, may hold
Python `None`), the external collaborators (BLIP captioning, Mistral
description, DeepL translation, image IO) become opaque function parameters,
and file-system state becomes an explicit record threaded through the
functions that touch it.
-/

/-- One dict as built by `describe_image` / the run loop of
`image_description.py`.  `filename` is always present (every return path of
`describe_image` sets it).  A field of type `Option String` is `none` when the
corresponding dict key is absent.  `translated_caption` /
`translated_description` are written by the run loop with value `None` for the
source language, so they are modelled as `Option (Option String)`:
`none` = key absent, `some none` = key present holding Python `None`,
`some (some t)` = key present holding string `t`. -/
structure ImgDict where
  filename : String
  language : Option String := none
  blip_caption : Option String := none
  mistral_description : Option String := none
  translated_caption : Option (Option String) := none
  translated_description : Option (Option String) := none
deriving DecidableEq, Repr

/-- One issued call to an external collaborator (the captioning model, the
vision-description model, or the translation service). -/
inductive CallEvent where
  | blip
  | mistral
  | translate
deriving DecidableEq, Repr

/-- The external collaborators of `ImageDescriptionApp`, as opaque functions.
`none` models the Python call raising (or, for `translate`, the
`translate_text` wrapper catching the exception and returning `None`).
`imageExists` models whether `Image.open` / `open` succeed on the path. -/
structure Collaborators where
  imageExists : String → Bool
  blip : String → Option String
  encode : String → Option String
  mistral : String → String → Option String
  translate : String → String → Option String

/-- `os.path.basename`: the part of the path after the last slash. -/
def basename (p : String) : String :=
  String.mk ((p.data.reverse.takeWhile (fun c => c != '/')).reverse)

/-- Python `str.capitalize()`: first character upper-cased, the rest
lower-cased (ASCII approximation, as used on BLIP captions). -/
def pyCapitalize (s : String) : String :=
  match s.data with
  | [] => ""
  | c :: rest => String.mk (c.toUpper :: rest.map Char.toLower)

/-- Python whitespace for `str.strip()`. -/
def isPySpace (c : Char) : Bool :=
  (c == ' ') || (c == '\t') || (c == '\n') || (c == '\r') ||
    (c == Char.ofNat 11) || (c == Char.ofNat 12)

/-- Python `str.strip()`: drop leading and trailing whitespace.
Approximation: Python also strips the remaining Unicode whitespace
characters (U+00A0, U+0085, ...); the two agree on all-ASCII prompts. -/
def pyStrip (s : String) : String :=
  String.mk (((s.data.dropWhile isPySpace).reverse.dropWhile isPySpace).reverse)

/-- Does the second list start with the first one? -/
def startsWithChars : List Char → List Char → Bool
  | [], _ => true
  | _ :: _, [] => false
  | p :: ps, c :: cs => p == c && startsWithChars ps cs

/-- Replace every non-overlapping occurrence of `pat` (left to right) by
`rep`, fuel-bounded so that the kernel can evaluate it; the fuel is started
at the length of the text, which the recursion never exhausts. -/
def replaceFuel (pat rep : List Char) : Nat → List Char → List Char
  | 0, l => l
  | _ + 1, [] => []
  | fuel + 1, c :: rest =>
    if startsWithChars pat (c :: rest) && !pat.isEmpty then
      rep ++ replaceFuel pat rep fuel ((c :: rest).drop pat.length)
    else c :: replaceFuel pat rep fuel rest

/-- Python `str.replace(pat, rep)` for a non-empty `pat` (the only patterns
the program uses are the three non-empty placeholder literals). -/
def pyReplace (s pat rep : String) : String :=
  String.mk (replaceFuel pat.data rep.data s.data.length s.data)

/-- The `target_languages` mapping of `AppConfig` (language name to code). -/
def target_languages : List (String × String) :=
  [("English", "EN"), ("Spanish", "ES"), ("French", "FR"), ("German", "DE"),
   ("Italian", "IT"), ("Japanese", "JA"), ("Chinese", "ZH")]

/-- The cache-lookup predicate of `describe_image`
(`img["filename"] == os.path.basename(image_path) and
img["language"] == language`).  Approximation: on a stored record whose
filename matches but which has no `language` key, Python would raise
`KeyError` during the scan, while this predicate reports a non-match; every
record the run loop writes to the store carries the key, so the two agree on
all program-produced store states. -/
def cacheHit (image_path language : String) (img : ImgDict) : Bool :=
  img.filename == basename image_path && img.language == some language

/-- `ImageDescriptionApp.describe_image`, with the list of issued collaborator
calls made explicit.  First the approved-images cache is scanned (first match
wins, zero collaborator calls).  On a miss the Python method opens the image,
runs BLIP (a raised generation error aborts with a dict holding only the
filename; a decode error inside the inner `try` yields caption `""`, which the
`Collaborators.blip` function can already produce), base64-encodes the image
(`if not base64_image` also treats an empty string as failure), then calls
Mistral; every abort path returns `{"filename": basename}` only.  On success
the BLIP caption is `capitalize`d.  The method never writes to the
approved-images list (timing fields of the Python dict are not modelled). -/
def describe_image (col : Collaborators) (prompt : String)
    (approved : List ImgDict) (image_path language : String) :
    ImgDict × List CallEvent :=
  match approved.find? (cacheHit image_path language) with
  | some img => (img, [])
  | none =>
    if col.imageExists image_path = false then
      ({ filename := basename image_path }, [])
    else
      match col.blip image_path with
      | none => ({ filename := basename image_path }, [CallEvent.blip])
      | some raw_caption =>
        match col.encode image_path with
        | none => ({ filename := basename image_path }, [CallEvent.blip])
        | some b64 =>
          if b64.isEmpty then
            ({ filename := basename image_path }, [CallEvent.blip])
          else
            match col.mistral prompt b64 with
            | none =>
              ({ filename := basename image_path },
               [CallEvent.blip, CallEvent.mistral])
            | some desc =>
              ({ filename := basename image_path,
                 language := some language,
                 blip_caption := some (pyCapitalize raw_caption),
                 mistral_description := some desc },
               [CallEvent.blip, CallEvent.mistral])

/-- The approval branch of the run loop:
`if processed_image_info not in self.approved_images: append` — membership by
whole-dict equality, matching Python `in` over dicts. -/
def approveOp (L : List ImgDict) (r : ImgDict) : List ImgDict :=
  if r ∈ L then L else L ++ [r]

/-- The un-approval branch of the run loop:
`if processed_image_info in self.approved_images: remove` — Python
`list.remove` deletes the first element equal to the record, and the guard
makes the absent case a no-op, which is exactly `List.erase`. -/
def unapproveOp (L : List ImgDict) (r : ImgDict) : List ImgDict :=
  L.erase r

/-- A ledger mutation of the run loop: the approve checkbox ticked
(`approve`) or un-ticked (`unapprove`) for a given processed record. -/
inductive LedgerOp where
  | approve (r : ImgDict)
  | unapprove (r : ImgDict)
deriving DecidableEq, Repr

/-- Apply one run-loop ledger mutation. -/
def apply_ledger_op (L : List ImgDict) : LedgerOp → List ImgDict
  | LedgerOp.approve r => approveOp L r
  | LedgerOp.unapprove r => unapproveOp L r

/-- Apply a sequence of run-loop ledger mutations, oldest first. -/
def apply_ledger_ops (L : List ImgDict) (ops : List LedgerOp) : List ImgDict :=
  ops.foldl apply_ledger_op L

/-- The language filter used on `approved_images` by the Generate Output
block (`img["language"] == selected_language_code`), read as the ledger
listing for one language. -/
def listByLanguage (L : List ImgDict) (code : String) : List ImgDict :=
  L.filter (fun img => img.language == some code)

/-- The on-disk state touched by `check_and_delete_cache`:
`approved_images_cache.json` and `image_prompt.txt`.  `none` means the file
does not exist; `some s` is its text content. -/
structure FsState where
  cacheFile : Option String
  promptFile : Option String
deriving DecidableEq, Repr

/-- Observable outcome of `check_and_delete_cache`: whether the
prompt-changed branch (which deletes the cache file) was taken.  The Python
method returns `None`; this labels the branch, matching the spec's
`Invalidated | Unchanged` interface. -/
inductive GuardResult where
  | invalidated
  | unchanged
deriving DecidableEq, Repr

/-- `ImageDescriptionApp.check_and_delete_cache`.  If `image_prompt.txt`
exists, its content is read and `strip()`ped and compared with the current
prompt; on a difference the cache file is removed (if present) and the prompt
file is overwritten with the current prompt.  If the prompt file does not
exist it is created with the current prompt.  When the stripped saved prompt
equals the current prompt nothing is written. -/
def check_and_delete_cache (fs : FsState) (currentPrompt : String) :
    FsState × GuardResult :=
  match fs.promptFile with
  | some contents =>
    if pyStrip contents != currentPrompt then
      ({ cacheFile := none, promptFile := some currentPrompt },
       GuardResult.invalidated)
    else
      (fs, GuardResult.unchanged)
  | none =>
    ({ fs with promptFile := some currentPrompt }, GuardResult.unchanged)

/-- In-session state of the app: the two files plus the in-memory
`self.approved_images` list loaded at startup. -/
structure AppState where
  fs : FsState
  approved_images : List ImgDict
deriving DecidableEq, Repr

/-- `check_and_delete_cache` as it acts on the whole session state: the
method body only reads and writes the two files; `self.approved_images` is
not mentioned in it. -/
def app_check_and_delete_cache (s : AppState) (p : String) :
    AppState × GuardResult :=
  let r := check_and_delete_cache s.fs p
  ({ fs := r.1, approved_images := s.approved_images }, r.2)

/-- One iteration of the image loop in `ImageDescriptionApp.run`
(lines 324-417): open the image, call `describe_image`, display the caption
and description (a `KeyError` on `description["blip_caption"]` or
`description["mistral_description"]` is caught by the loop's `except` and
aborts the iteration with the ledger unchanged), translate both texts when
the selected language is not English (each translation failure yields
`None`), build `processed_image_info`, and run the approval branch with the
checkbox state `approveFlag`.  Returns the new approved list, the processed
record (when one was built) and the collaborator calls issued. -/
def process_one_image (col : Collaborators) (prompt target_lang : String)
    (approved : List ImgDict) (full_path : String) (approveFlag : Bool) :
    List ImgDict × Option ImgDict × List CallEvent :=
  match target_languages.lookup target_lang with
  | none => (approved, none, [])
  | some code =>
    if col.imageExists full_path = false then (approved, none, [])
    else
      match describe_image col prompt approved full_path code with
      | (description, calls) =>
        match description.blip_caption with
        | none => (approved, none, calls)
        | some bc =>
          match description.mistral_description with
          | none => (approved, none, calls)
          | some md =>
            let notEnglish : Bool := target_lang != "English"
            let tcap : Option String :=
              if notEnglish then col.translate bc code else none
            let tdesc : Option String :=
              if notEnglish then col.translate md code else none
            let tcalls : List CallEvent :=
              if notEnglish then [CallEvent.translate, CallEvent.translate]
              else []
            match description.language with
            | none => (approved, none, calls ++ tcalls)
            | some lng =>
              let processed : ImgDict :=
                { filename := description.filename,
                  language := some lng,
                  blip_caption := some bc,
                  mistral_description := some md,
                  translated_caption := some tcap,
                  translated_description := some tdesc }
              if approveFlag then
                (approveOp approved processed, some processed, calls ++ tcalls)
              else
                (unapproveOp approved processed, some processed,
                 calls ++ tcalls)

/-- The title chosen by the Generate Output block:
`img["translated_caption"] if target_lang != 'English' else
img["blip_caption"]`.  `none` models the crash: a `KeyError` for an absent
key, or the `TypeError` raised by `str.replace` when the stored value is
Python `None`. -/
def lookup_title (isEnglish : Bool) (img : ImgDict) : Option String :=
  if isEnglish then img.blip_caption
  else
    match img.translated_caption with
    | some (some t) => some t
    | _ => none

/-- The description chosen by the Generate Output block, same shape as
`lookup_title` but over `translated_description` / `mistral_description`. -/
def lookup_description (isEnglish : Bool) (img : ImgDict) : Option String :=
  if isEnglish then img.mistral_description
  else
    match img.translated_description with
    | some (some d) => some d
    | _ => none

/-- Rendering of one approved record through the user template: the three
`str.replace` calls on `{image_file}`, `{output_title}` and
`{output_description}`.  `none` when the title or description access
crashes. -/
def render_record (template : String) (isEnglish : Bool) (img : ImgDict) :
    Option String :=
  match lookup_title isEnglish img, lookup_description isEnglish img with
  | some t, some d =>
    some (pyReplace (pyReplace (pyReplace template "{image_file}" img.filename)
            "{output_title}" t) "{output_description}" d)
  | _, _ => none

/-- The loop body of the Generate Output block: walk `approved_images` in
order, keep records whose `language` equals the selected code, skip a record
whose `export_key` (`filename ++ "_" ++ language`) was already seen, render
the rest.  A record without a `language` key (`none`) raises `KeyError` and a
failing rendering raises, so either aborts the whole generation (`none`). -/
def generate_output_go (template : String) (isEnglish : Bool) (code : String) :
    List ImgDict → List String → Option (List String)
  | [], _ => some []
  | img :: rest, seen =>
    match img.language with
    | none => none
    | some l =>
      if l == code then
        let key := img.filename ++ "_" ++ l
        if key ∈ seen then generate_output_go template isEnglish code rest seen
        else
          match render_record template isEnglish img with
          | none => none
          | some out =>
            (generate_output_go template isEnglish code rest (key :: seen)).map
              (fun outs => out :: outs)
      else generate_output_go template isEnglish code rest seen

/-- The Generate Output block of `ImageDescriptionApp.run` (lines 448-468):
resolve the selected language name to its code (a `KeyError` on an unknown
name is `none`), run the loop from an empty seen-set, and `"".join` the
rendered pieces. -/
def generate_output (template target_lang : String)
    (approved : List ImgDict) : Option String :=
  match target_languages.lookup target_lang with
  | none => none
  | some code =>
    (generate_output_go template (target_lang == "English") code approved
      []).map String.join

/-- The EntryKey of a record as the spec words it: (filename, languageCode).
The language component keeps the `Option` so that a record without the key is
its own key class. -/
def entry_key (img : ImgDict) : String × Option String :=
  (img.filename, img.language)

/-- Modelled from the spec (§4.5 step 2): deduplication by EntryKey keeping
the first occurrence, used as the specification side of the export
refinement. -/
def dedup_by_key : List ImgDict → List (String × Option String) → List ImgDict
  | [], _ => []
  | img :: rest, seen =>
    if entry_key img ∈ seen then dedup_by_key rest seen
    else img :: dedup_by_key rest (entry_key img :: seen)

/-- Modelled from the spec (§4.5 step 4): render every record of a list,
failing when any single rendering fails. -/
def render_all (template : String) (isEnglish : Bool) :
    List ImgDict → Option (List String)
  | [] => some []
  | img :: rest =>
    match render_record template isEnglish img,
          render_all template isEnglish rest with
    | some out, some outs => some (out :: outs)
    | _, _ => none

/-- Modelled from the spec (§4.5): `ExportBuilder.build` as worded — list the
approved records for the language, deduplicate by EntryKey keeping the first
occurrence, render each through the template, concatenate in ledger order. -/
def export_spec (template target_lang : String)
    (approved : List ImgDict) : Option String :=
  match target_languages.lookup target_lang with
  | none => none
  | some code =>
    (render_all template (target_lang == "English")
      (dedup_by_key (listByLanguage approved code) [])).map String.join

/-- Outcome of reading `approved_images_cache.json` in
`load_approved_images`.  `absent`: `os.path.exists` is false.  `vanished`:
the file existed at the check but `open` raised `FileNotFoundError`.
`readOther`: `open`/`read` raised some other error (permission denied, bytes
that do not decode as UTF-8, ...).  `content s`: the read succeeded with text
`s`. -/
inductive ReadOutcome where
  | absent
  | vanished
  | readOther
  | content (s : String)
deriving DecidableEq, Repr

/-- Result of `load_approved_images`: either `self.approved_images` is set
(with `warned` recording whether the warning branch ran), or an uncaught
exception propagates out of `__init__` (`raised`). -/
inductive LoadResult where
  | ok (imgs : List ImgDict) (warned : Bool)
  | raised
deriving DecidableEq, Repr

/-- `ImageDescriptionApp.load_approved_images`.  JSON parsing is opaque
(`parseJson s = none` models `json.load` raising `JSONDecodeError`).  The
`except` clause catches exactly `(json.JSONDecodeError, FileNotFoundError)`;
any other read error is uncaught. -/
def load_approved_images (parseJson : String → Option (List ImgDict)) :
    ReadOutcome → LoadResult
  | ReadOutcome.absent => LoadResult.ok [] false
  | ReadOutcome.vanished => LoadResult.ok [] true
  | ReadOutcome.readOther => LoadResult.raised
  | ReadOutcome.content s =>
    match parseJson s with
    | some imgs => LoadResult.ok imgs false
    | none => LoadResult.ok [] true

/-! ## Concrete records and collaborator instances used in the witnesses and
counterexamples. -/

/-- Approved record for image `a.jpg` in German with a first description. -/
def rDE1 : ImgDict :=
  { filename := "a.jpg", language := some "DE",
    blip_caption := some "Cap", mistral_description := some "Desc one",
    translated_caption := some (some "TC1"),
    translated_description := some (some "TD1") }

/-- Approved record for the same key `(a.jpg, DE)` with a second,
different description. -/
def rDE2 : ImgDict :=
  { filename := "a.jpg", language := some "DE",
    blip_caption := some "Cap", mistral_description := some "Desc two",
    translated_caption := some (some "TC2"),
    translated_description := some (some "TD2") }

/-- Approved French record whose translated keys are present but hold
Python `None` (a failed translation stored by the run loop). -/
def rFRnone : ImgDict :=
  { filename := "b.jpg", language := some "FR",
    blip_caption := some "Cap", mistral_description := some "Desc",
    translated_caption := some none, translated_description := some none }

/-- Collaborators for which every external call succeeds. -/
def colOK : Collaborators :=
  ⟨fun _ => true, fun _ => some "a cat", fun _ => some "B64",
   fun _ _ => some "A detailed cat.", fun _ _ => some "T"⟩

/-- Collaborators for which captioning and description succeed but every
translation call fails. -/
def colTFail : Collaborators :=
  ⟨fun _ => true, fun _ => some "a cat", fun _ => some "B64",
   fun _ _ => some "A detailed cat.", fun _ _ => none⟩

/-- Collaborators for which the BLIP captioning call raises. -/
def colBlipFail : Collaborators :=
  ⟨fun _ => true, fun _ => none, fun _ => some "B64",
   fun _ _ => some "D", fun _ _ => some "T"⟩

/-- Collaborators that are never consulted (every call fails); used where a
cache hit must not depend on them. -/
def colStub : Collaborators :=
  ⟨fun _ => false, fun _ => none, fun _ => none, fun _ _ => none,
   fun _ _ => none⟩

/-! ## Shared lemmas -/

/-- `approveOp` preserves the absence of duplicate records: it appends only a
record that is not yet in the list. -/
theorem approveOp_nodup {L : List ImgDict} {r : ImgDict} (h : L.Nodup) :
    (approveOp L r).Nodup := by
  unfold approveOp
  split
  · exact h
  · next hveto => simp [List.nodup_append, h, hveto]

/-! ## C1 -/

/-- Claim C1 counterexample: approving `(a.jpg, DE)` twice with different
descriptions leaves BOTH records live — `listByLanguage "DE"` returns two
records with the same EntryKey, and the first description is still live, so
the claimed upsert-by-EntryKey does not happen. -/
theorem c1_counterexample :
    listByLanguage (approveOp (approveOp [] rDE1) rDE2) "DE" = [rDE1, rDE2] ∧
    rDE1.filename = rDE2.filename ∧ rDE1.language = rDE2.language ∧
    rDE1 ≠ rDE2 := by decide

/-- Claim C1 amended: the approval branch deduplicates by whole-record
equality only — for every sequence of approve/unapprove operations starting
from a duplicate-free ledger, the ledger never holds two bit-identical
records (but it can hold two different records with the same EntryKey). -/
theorem c1_amended (ops : List LedgerOp) (L : List ImgDict) (h : L.Nodup) :
    (apply_ledger_ops L ops).Nodup := by
  induction ops generalizing L with
  | nil => exact h
  | cons op rest ih =>
    simp only [apply_ledger_ops, List.foldl_cons]
    cases op with
    | approve r => exact ih _ (approveOp_nodup h)
    | unapprove r => exact ih _ (h.erase r)

/-- Witness for `c1_amended` at a concrete operation sequence. -/
theorem c1_witness :
    (apply_ledger_ops []
      [LedgerOp.approve rDE1, LedgerOp.approve rDE1,
       LedgerOp.approve rDE2, LedgerOp.unapprove rDE1]).Nodup :=
  c1_amended
    [LedgerOp.approve rDE1, LedgerOp.approve rDE1,
     LedgerOp.approve rDE2, LedgerOp.unapprove rDE1] [] List.nodup_nil

/-! ## C3 -/

/-- Claim C3 counterexample: with `image_prompt.txt` holding exactly the
current prompt `"abc "` (byte-for-byte equal), `check_and_delete_cache`
still takes the invalidation branch and deletes the cache file, because it
compares the `strip()`ped file content `"abc"` with the prompt. -/
theorem c3_counterexample :
    (check_and_delete_cache ⟨some "[]", some "abc "⟩ "abc ").2 =
      GuardResult.invalidated ∧
    (check_and_delete_cache ⟨some "[]", some "abc "⟩ "abc ").1.cacheFile =
      none := by decide

/-- Claim C3 amended: invalidation triggers exactly when a persisted prompt
file exists and its whitespace-STRIPPED content differs from the current
prompt (not byte-for-byte comparison of the persisted text); when the result
is Unchanged the cache file is untouched; on a first run (no prompt file) the
prompt is persisted and the result is Unchanged. -/
theorem c3_amended (fs : FsState) (p : String) :
    ((check_and_delete_cache fs p).2 = GuardResult.invalidated ↔
      ∃ c, fs.promptFile = some c ∧ pyStrip c ≠ p) ∧
    ((check_and_delete_cache fs p).2 = GuardResult.unchanged →
      (check_and_delete_cache fs p).1.cacheFile = fs.cacheFile) ∧
    (fs.promptFile = none →
      (check_and_delete_cache fs p).2 = GuardResult.unchanged ∧
        (check_and_delete_cache fs p).1.promptFile = some p) := by
  unfold check_and_delete_cache
  cases hf : fs.promptFile with
  | none => simp [hf]
  | some c0 =>
    by_cases hs : pyStrip c0 = p
    · simp [hf, hs]
    · simp [hf, hs]

/-- Witness for `c3_amended`: an unchanged prompt leaves the cache file in
place. -/
theorem c3_witness :
    (check_and_delete_cache ⟨some "[]", some "abc"⟩ "abc").1.cacheFile =
      some "[]" :=
  (c3_amended ⟨some "[]", some "abc"⟩ "abc").2.1 (by decide)

/-! ## C4 -/

/-- Claim C4 counterexample: after a detected prompt change
(`Invalidated`), the in-memory approved list still holds the record generated
under the old prompt, and a `describe_image` lookup in the same session is
served from it with zero collaborator calls — so the stores are NOT both
empty after invalidation. -/
theorem c4_counterexample :
    (app_check_and_delete_cache ⟨⟨some "x", some "old"⟩, [rDE1]⟩ "new").2 =
      GuardResult.invalidated ∧
    describe_image colStub "new"
      (app_check_and_delete_cache ⟨⟨some "x", some "old"⟩, [rDE1]⟩
        "new").1.approved_images "a.jpg" "DE" = (rDE1, []) := by
  constructor
  · decide
  · decide

/-- Claim C4 amended: when `check_and_delete_cache` takes the invalidation
branch, the on-disk cache file is removed and the prompt file is rewritten,
but the in-memory `approved_images` list is left unchanged, so same-session
lookups can still be served from records generated under the old prompt;
only the next session, which reloads from disk, starts empty. -/
theorem c4_amended (s : AppState) (p : String)
    (h : (app_check_and_delete_cache s p).2 = GuardResult.invalidated) :
    (app_check_and_delete_cache s p).1.fs.cacheFile = none ∧
    (app_check_and_delete_cache s p).1.fs.promptFile = some p ∧
    (app_check_and_delete_cache s p).1.approved_images =
      s.approved_images := by
  unfold app_check_and_delete_cache check_and_delete_cache at h ⊢
  cases hf : s.fs.promptFile with
  | none => rw [hf] at h; simp at h
  | some c0 =>
    by_cases hs : pyStrip c0 = p
    · rw [hf] at h
      simp [hs] at h
    · simp [hs]

/-- Witness for `c4_amended` at a concrete invalidating state. -/
theorem c4_witness :
    (app_check_and_delete_cache ⟨⟨some "x", some "old"⟩, [rDE1]⟩
      "new").1.fs.cacheFile = none ∧
    (app_check_and_delete_cache ⟨⟨some "x", some "old"⟩, [rDE1]⟩
      "new").1.fs.promptFile = some "new" ∧
    (app_check_and_delete_cache ⟨⟨some "x", some "old"⟩, [rDE1]⟩
      "new").1.approved_images =
      (⟨⟨some "x", some "old"⟩, [rDE1]⟩ : AppState).approved_images :=
  c4_amended ⟨⟨some "x", some "old"⟩, [rDE1]⟩ "new" (by decide)

/-! ## C9 -/

/-- Claim C9 counterexample: a cache file that exists but cannot be read
(permission error, bytes that do not decode) is outside the
`(json.JSONDecodeError, FileNotFoundError)` except clause, so loading raises
and startup fails instead of initializing the store empty with a warning. -/
theorem c9_counterexample :
    load_approved_images (fun _ => none) ReadOutcome.readOther =
      LoadResult.raised ∧
    LoadResult.raised ≠ LoadResult.ok [] true := by
  refine ⟨rfl, ?_⟩
  intro h
  cases h

/-- Claim C9 amended: loading recovers (empty list, warning logged) exactly
from invalid JSON and from the file vanishing between the existence check and
the open; a missing file loads empty without a warning; valid JSON loads its
records; any other read error propagates and does fail startup. -/
theorem c9_amended (parseJson : String → Option (List ImgDict))
    (s1 s2 : String) (imgs : List ImgDict) :
    load_approved_images parseJson ReadOutcome.absent =
      LoadResult.ok [] false ∧
    load_approved_images parseJson ReadOutcome.vanished =
      LoadResult.ok [] true ∧
    (parseJson s1 = none →
      load_approved_images parseJson (ReadOutcome.content s1) =
        LoadResult.ok [] true) ∧
    (parseJson s2 = some imgs →
      load_approved_images parseJson (ReadOutcome.content s2) =
        LoadResult.ok imgs false) ∧
    load_approved_images parseJson ReadOutcome.readOther =
      LoadResult.raised := by
  refine ⟨rfl, rfl, fun h => ?_, fun h => ?_, rfl⟩ <;>
    simp [load_approved_images, h]

/-- Witness for `c9_amended`: corrupt JSON yields the empty, warned store. -/
theorem c9_witness :
    load_approved_images (fun _ => none) (ReadOutcome.content "not json") =
      LoadResult.ok [] true :=
  (c9_amended (fun _ => none) "not json" "x" []).2.2.1 rfl

/-! ## C10 -/

/-- Claim C10: `check_and_delete_cache` only touches the two files; the
in-memory `approved_images` list is unchanged, and `describe_image` lookups
after the call behave exactly as before it. -/
theorem c10_theorem (s : AppState) (p : String) (col : Collaborators)
    (pr path lang : String) :
    (app_check_and_delete_cache s p).1.approved_images =
      s.approved_images ∧
    describe_image col pr
        (app_check_and_delete_cache s p).1.approved_images path lang =
      describe_image col pr s.approved_images path lang :=
  ⟨rfl, rfl⟩

/-! ## C2 -/

/-- The record `describe_image colOK "p" [] "a.jpg" "EN"` produces. -/
def recEN : ImgDict :=
  { filename := "a.jpg", language := some "EN",
    blip_caption := some "A cat",
    mistral_description := some "A detailed cat." }

/-- Claim C2 counterexample: `describe_image` does not write to the
approved-images store (its only state input, `approved`, is not part of its
result), so a second call with the identical arguments is the identical
evaluation — and on an uncached key it again issues the captioning and
description calls instead of the claimed zero calls served from a store. -/
theorem c2_counterexample :
    (describe_image colOK "p" [] "a.jpg" "EN").2 =
      [CallEvent.blip, CallEvent.mistral] ∧
    (describe_image colOK "p" [] "a.jpg" "EN").2 ≠ [] := by decide

/-- Claim C2 amended: `describe_image` is only served from the
approved-images cache, and a record reaches that cache through approval, not
through `describe_image` itself; once the record returned by a successful
call (its `language` key is set exactly on cache hits and full successes) is
approved, a repeat call returns the bit-identical record with zero
collaborator calls. -/
theorem c2_amended (col : Collaborators) (prompt : String)
    (approved : List ImgDict) (path lang : String) (r : ImgDict)
    (c : List CallEvent)
    (h : describe_image col prompt approved path lang = (r, c))
    (hl : r.language = some lang) :
    describe_image col prompt (approveOp approved r) path lang = (r, []) := by
  have hpred : cacheHit path lang r = true := by
    cases hf : approved.find? (cacheHit path lang) with
    | some img =>
      have heval : describe_image col prompt approved path lang =
          (img, []) := by
        unfold describe_image
        rw [hf]
      rw [h] at heval
      injection heval with h1 h2
      rw [h1]
      exact List.find?_some hf
    | none =>
      by_cases he : col.imageExists path = false
      · have heval : describe_image col prompt approved path lang =
            ({ filename := basename path }, []) := by
          unfold describe_image
          rw [hf]
          simp [he]
        rw [h] at heval
        injection heval with h1 h2
        rw [h1] at hl
        simp at hl
      · cases hb : col.blip path with
        | none =>
          have heval : describe_image col prompt approved path lang =
              ({ filename := basename path }, [CallEvent.blip]) := by
            unfold describe_image
            rw [hf]
            simp [he, hb]
          rw [h] at heval
          injection heval with h1 h2
          rw [h1] at hl
          simp at hl
        | some cap =>
          cases hc : col.encode path with
          | none =>
            have heval : describe_image col prompt approved path lang =
                ({ filename := basename path }, [CallEvent.blip]) := by
              unfold describe_image
              rw [hf]
              simp [he, hb, hc]
            rw [h] at heval
            injection heval with h1 h2
            rw [h1] at hl
            simp at hl
          | some b64 =>
            by_cases hbe : b64.isEmpty
            · have heval : describe_image col prompt approved path lang =
                  ({ filename := basename path }, [CallEvent.blip]) := by
                unfold describe_image
                rw [hf]
                simp [he, hb, hc, hbe]
              rw [h] at heval
              injection heval with h1 h2
              rw [h1] at hl
              simp at hl
            · cases hm : col.mistral prompt b64 with
              | none =>
                have heval : describe_image col prompt approved path lang =
                    ({ filename := basename path },
                     [CallEvent.blip, CallEvent.mistral]) := by
                  unfold describe_image
                  rw [hf]
                  simp [he, hb, hc, hbe, hm]
                rw [h] at heval
                injection heval with h1 h2
                rw [h1] at hl
                simp at hl
              | some d =>
                have heval : describe_image col prompt approved path lang =
                    ({ filename := basename path, language := some lang,
                       blip_caption := some (pyCapitalize cap),
                       mistral_description := some d },
                     [CallEvent.blip, CallEvent.mistral]) := by
                  unfold describe_image
                  rw [hf]
                  simp [he, hb, hc, hbe, hm]
                rw [h] at heval
                injection heval with h1 h2
                rw [h1]
                simp [cacheHit]
  have hfind :
      (approveOp approved r).find? (cacheHit path lang) = some r := by
    cases hf : approved.find? (cacheHit path lang) with
    | some img =>
      have heval : describe_image col prompt approved path lang =
          (img, []) := by
        unfold describe_image
        rw [hf]
      rw [h] at heval
      injection heval with h1 h2
      have hmem : r ∈ approved := by
        rw [h1]
        exact List.mem_of_find?_eq_some hf
      unfold approveOp
      rw [if_pos hmem, hf, h1]
    | none =>
      have hnot : r ∉ approved := fun hmem =>
        absurd hpred (List.find?_eq_none.mp hf r hmem)
      unfold approveOp
      rw [if_neg hnot, List.find?_append, hf]
      simp [List.find?, hpred]
  unfold describe_image
  rw [hfind]

/-- Witness for `c2_amended`: once the freshly produced record is approved,
the repeat call is a zero-call cache hit. -/
theorem c2_witness :
    describe_image colOK "p" (approveOp [] recEN) "a.jpg" "EN" =
      (recEN, []) :=
  c2_amended colOK "p" [] "a.jpg" "EN" recEN
    [CallEvent.blip, CallEvent.mistral] (by decide) (by decide)

/-! ## C5 -/

/-- Claim C5 counterexample: an approved French record whose translated keys
hold Python `None` and whose source fields are non-empty makes the export
crash (`str.replace` with `None`): the generation yields no output at all
instead of falling back to `blip_caption` / `mistral_description`. -/
theorem c5_counterexample :
    generate_output "s {image_file} {output_title} {output_description}"
      "French" [rFRnone] = none ∧
    rFRnone.blip_caption = some "Cap" ∧ "Cap" ≠ "" := by decide

/-- Claim C5 amended: for a non-source language the export reads only the
translated fields; when the stored translated caption is Python `None` the
export raises (no output is produced) — there is no fallback to the
source-language fields. -/
theorem c5_amended (t tl lang : String) (img : ImgDict)
    (hlang : target_languages.lookup tl = some lang)
    (hne : tl ≠ "English")
    (hl : img.language = some lang)
    (htc : img.translated_caption = some none) :
    generate_output t tl [img] = none := by
  have hEng : (tl == "English") = false := by
    simp [hne]
  unfold generate_output
  rw [hlang]
  simp [generate_output_go, hl, hEng, render_record, lookup_title, htc]

/-- Witness for `c5_amended` at the concrete stored-failure record. -/
theorem c5_witness : generate_output "t" "French" [rFRnone] = none :=
  c5_amended "t" "French" "FR" rFRnone (by decide) (by decide) rfl rfl

/-! ## C6 -/

/-- Claim C6 counterexample: when captioning raises, `describe_image`
returns `{"filename": basename}` only — the record does NOT carry the
language code (and has no content keys at all), contrary to the claimed
filename-and-languageCode shape. -/
theorem c6_counterexample :
    describe_image colBlipFail "p" [] "c.jpg" "FR" =
      ({ filename := "c.jpg" }, [CallEvent.blip]) ∧
    ({ filename := "c.jpg" } : ImgDict).language = none := by decide

/-- Claim C6 amended: on a cache miss with a failing captioning call the
returned record carries only the filename (no language key, no content
keys); the run-loop iteration writes nothing — the failure record never
reaches the approval branch, because displaying it raises `KeyError` first —
so the ledger the iteration returns is the one it started from, and a
subsequent `describe_image` call on that ledger misses again and re-issues
the captioning call instead of being served from a store. -/
theorem c6_amended (col : Collaborators) (prompt tl path lang : String)
    (approved : List ImgDict) (apprFlag : Bool)
    (hlang : target_languages.lookup tl = some lang)
    (hex : col.imageExists path = true)
    (hblip : col.blip path = none)
    (hmiss : approved.find? (cacheHit path lang) = none) :
    describe_image col prompt approved path lang =
      ({ filename := basename path }, [CallEvent.blip]) ∧
    process_one_image col prompt tl approved path apprFlag =
      (approved, none, [CallEvent.blip]) ∧
    describe_image col prompt
        (process_one_image col prompt tl approved path apprFlag).1
        path lang =
      ({ filename := basename path }, [CallEvent.blip]) := by
  have h1 : describe_image col prompt approved path lang =
      ({ filename := basename path }, [CallEvent.blip]) := by
    unfold describe_image
    rw [hmiss]
    simp [hex, hblip]
  have hproc : process_one_image col prompt tl approved path apprFlag =
      (approved, none, [CallEvent.blip]) := by
    unfold process_one_image
    rw [hlang]
    simp [hex, h1]
  refine ⟨h1, hproc, ?_⟩
  rw [hproc]
  exact h1

/-- Witness for `c6_amended` at concrete failing collaborators. -/
theorem c6_witness :
    describe_image colBlipFail "p" [] "c.jpg" "FR" =
      ({ filename := "c.jpg" }, [CallEvent.blip]) ∧
    process_one_image colBlipFail "p" "French" [] "c.jpg" true =
      ([], none, [CallEvent.blip]) ∧
    describe_image colBlipFail "p"
        (process_one_image colBlipFail "p" "French" [] "c.jpg" true).1
        "c.jpg" "FR" =
      ({ filename := "c.jpg" }, [CallEvent.blip]) := by
  have h := c6_amended colBlipFail "p" "French" "c.jpg" "FR" [] true
    (by decide) (by decide) (by decide) (by decide)
  simpa using h

/-! ## C7 -/

/-- Claim C7: on a cache miss where captioning, encoding and description all
succeed but both translation calls fail for a non-English target language,
the run-loop iteration returns a record with the content fields present
(`status=Complete` in the spec's terms), the translated keys holding `None`
(absent translated content), and — with the approval checkbox at its default
`True` — the record is still written to the approved-images store. -/
theorem c7_theorem (col : Collaborators)
    (prompt tl path lang cap b64 desc : String) (approved : List ImgDict)
    (hlang : target_languages.lookup tl = some lang)
    (hne : tl ≠ "English")
    (hex : col.imageExists path = true)
    (hblip : col.blip path = some cap)
    (henc : col.encode path = some b64)
    (hb64 : b64.isEmpty = false)
    (hmis : col.mistral prompt b64 = some desc)
    (htc : col.translate (pyCapitalize cap) lang = none)
    (htd : col.translate desc lang = none)
    (hmiss : approved.find? (cacheHit path lang) = none) :
    process_one_image col prompt tl approved path true =
      (approved ++
        [{ filename := basename path, language := some lang,
           blip_caption := some (pyCapitalize cap),
           mistral_description := some desc,
           translated_caption := some none,
           translated_description := some none }],
       some ({ filename := basename path, language := some lang,
               blip_caption := some (pyCapitalize cap),
               mistral_description := some desc,
               translated_caption := some none,
               translated_description := some none } : ImgDict),
       [CallEvent.blip, CallEvent.mistral, CallEvent.translate,
        CallEvent.translate]) := by
  have hEng : (tl != "English") = true := by simp [hne]
  have hdesc : describe_image col prompt approved path lang =
      ({ filename := basename path, language := some lang,
         blip_caption := some (pyCapitalize cap),
         mistral_description := some desc },
       [CallEvent.blip, CallEvent.mistral]) := by
    unfold describe_image
    rw [hmiss]
    simp [hex, hblip, henc, hb64, hmis]
  have hnot : ({ filename := basename path, language := some lang,
                 blip_caption := some (pyCapitalize cap),
                 mistral_description := some desc,
                 translated_caption := some none,
                 translated_description := some none } : ImgDict) ∉
      approved := by
    intro hmem
    exact absurd (by simp [cacheHit]) (List.find?_eq_none.mp hmiss _ hmem)
  unfold process_one_image
  rw [hlang]
  simp [hex, hdesc, hEng, htc, htd, approveOp, hnot]

/-- Witness for `c7_theorem` at concrete collaborators whose translation
always fails. -/
theorem c7_witness :
    process_one_image colTFail "p" "French" [] "b.jpg" true =
      ([{ filename := "b.jpg", language := some "FR",
          blip_caption := some (pyCapitalize "a cat"),
          mistral_description := some "A detailed cat.",
          translated_caption := some none,
          translated_description := some none }],
       some ({ filename := "b.jpg", language := some "FR",
               blip_caption := some (pyCapitalize "a cat"),
               mistral_description := some "A detailed cat.",
               translated_caption := some none,
               translated_description := some none } : ImgDict),
       [CallEvent.blip, CallEvent.mistral, CallEvent.translate,
        CallEvent.translate]) := by
  have h := c7_theorem colTFail "p" "French" "b.jpg" "FR" "a cat" "B64"
    "A detailed cat." [] (by decide) (by decide) rfl rfl rfl (by decide)
    rfl rfl rfl rfl
  simpa using h

/-! ## C8 -/

/-- Appending the same suffix to two strings is injective (used to relate the
code's `filename ++ "_" ++ language` export key to the spec's EntryKey pair
within one language). -/
theorem export_key_inj {f g l : String} (h : f ++ "_" ++ l = g ++ "_" ++ l) :
    f = g := by
  have hd := congrArg String.data h
  simp only [String.data_append] at hd
  exact String.ext (List.append_cancel_right (List.append_cancel_right hd))

/-- Loop invariant for the Generate Output block: with the seen-set of
string export keys and the spec-side seen-set of EntryKeys in
correspondence, the single-pass code loop computes exactly
filter-by-language, then dedup-by-EntryKey keeping the first occurrence,
then render-all. -/
theorem generate_go_eq_spec (t : String) (isEng : Bool) (code : String)
    (L : List ImgDict) :
    ∀ (seenS : List String) (seenK : List (String × Option String)),
    (∀ img ∈ L, (img.language).isSome) →
    (∀ f : String, (f ++ "_" ++ code) ∈ seenS ↔ (f, some code) ∈ seenK) →
    generate_output_go t isEng code L seenS =
      render_all t isEng (dedup_by_key (listByLanguage L code) seenK) := by
  induction L with
  | nil => intro seenS seenK _ _; rfl
  | cons img rest ih =>
    intro seenS seenK hLang hinv
    obtain ⟨l, hl⟩ := Option.isSome_iff_exists.mp
      (hLang img (List.mem_cons_self img rest))
    have hrest : ∀ i ∈ rest, (i.language).isSome := fun i hi =>
      hLang i (List.mem_cons_of_mem img hi)
    unfold generate_output_go
    simp only [hl]
    by_cases hc : l = code
    · subst hc
      have hbeq : (l == l) = true := beq_self_eq_true l
      simp only [hbeq, if_true]
      have hfilter : listByLanguage (img :: rest) l =
          img :: listByLanguage rest l := by
        simp [listByLanguage, List.filter_cons, hl]
      rw [hfilter]
      by_cases hk : (img.filename ++ "_" ++ l) ∈ seenS
      · rw [if_pos hk]
        have hkK : entry_key img ∈ seenK := by
          simp only [entry_key, hl]
          exact (hinv img.filename).mp hk
        unfold dedup_by_key
        rw [if_pos hkK]
        exact ih seenS seenK hrest hinv
      · rw [if_neg hk]
        have hkK : entry_key img ∉ seenK := by
          simp only [entry_key, hl]
          intro hmem
          exact hk ((hinv img.filename).mpr hmem)
        conv_rhs => unfold dedup_by_key
        rw [if_neg hkK]
        have hinv2 : ∀ f : String,
            (f ++ "_" ++ l) ∈ (img.filename ++ "_" ++ l) :: seenS ↔
              (f, some l) ∈ (img.filename, some l) :: seenK := by
          intro f
          constructor
          · intro hf
            rcases List.mem_cons.mp hf with heq | hin
            · rw [export_key_inj heq]
              exact List.mem_cons_self _ _
            · exact List.mem_cons_of_mem _ ((hinv f).mp hin)
          · intro hf
            rcases List.mem_cons.mp hf with heq | hin
            · have hfe : f = img.filename :=
                (Prod.mk.injEq _ _ _ _).mp heq |>.1
              rw [hfe]
              exact List.mem_cons_self _ _
            · exact List.mem_cons_of_mem _ ((hinv f).mpr hin)
        have hek : entry_key img = (img.filename, some l) := by
          simp [entry_key, hl]
        rw [hek]
        cases hr : render_record t isEng img with
        | none =>
          simp [render_all, hr]
        | some out =>
          rw [ih ((img.filename ++ "_" ++ l) :: seenS)
            ((img.filename, some l) :: seenK) hrest hinv2]
          cases hra : render_all t isEng
              (dedup_by_key (listByLanguage rest l)
                ((img.filename, some l) :: seenK)) with
          | none => simp [render_all, hr, hra]
          | some outs => simp [render_all, hr, hra]
    · have hbeq : (l == code) = false := by simp [hc]
      simp only [hbeq, Bool.false_eq_true, if_false]
      have hfilter : listByLanguage (img :: rest) code =
          listByLanguage rest code := by
        simp [listByLanguage, List.filter_cons, hl, hc]
      rw [hfilter]
      simpa using ih seenS seenK hrest hinv

/-- Claim C8: for a ledger whose records all carry a language key (every
record the run loop writes does), the Generate Output block returns exactly
the concatenation, in ledger order, of the template renderings of the
selected language's records, after deduplication by EntryKey keeping the
first occurrence; records of other languages contribute nothing.  Both
sides fail together when some surviving record cannot be rendered. -/
theorem c8_theorem (t tl : String) (approved : List ImgDict)
    (h : ∀ img ∈ approved, (img.language).isSome) :
    generate_output t tl approved = export_spec t tl approved := by
  unfold generate_output export_spec
  cases hk : target_languages.lookup tl with
  | none => rfl
  | some code =>
    simp only
    rw [generate_go_eq_spec t (tl == "English") code approved [] [] h
      (fun f => by simp)]

/-- Witness for `c8_theorem` on a concrete mixed-language ledger with a
duplicate EntryKey. -/
theorem c8_witness :
    generate_output "r {image_file} {output_title};" "German"
        [rDE1, rFRnone, rDE2, rDE1] =
      export_spec "r {image_file} {output_title};" "German"
        [rDE1, rFRnone, rDE2, rDE1] :=
  c8_theorem "r {image_file} {output_title};" "German"
    [rDE1, rFRnone, rDE2, rDE1] (by decide)
